import Mathlib

/-
Verification of the Evoki Regelwerk-Rekonstruktor front end (src/index.tsx).

The program manipulates dynamically-typed JSON values (the parsed remote
response, the parsed rule index).  We embed those values as the inductive
type `Json` below and translate the statistics aggregators, the accepted-rule
pre-filter, the prompt builder, the response-validation step and the retrying
remote-call wrapper directly from the source.  JavaScript truthiness,
`typeof x === 'object'`, `Array.isArray`, `Object.keys` / `Object.values`
and property access are modelled by the small helpers `truthy`,
`isObjectType`, `isArrayType`, `jsKeysLength`, `jsValues` and `jsGet`.
-/

namespace Regelwerk

/-- Dynamic JSON-like values manipulated by the program.  JS numbers are
restricted to integers, which covers every value the program inspects. -/
inductive Json where
  | str (s : String)
  | num (n : Int)
  | bool (b : Bool)
  | null
  | arr (elems : List Json)
  | obj (fields : List (String × Json))

/-- Property lookup in an object's field list (first match; parsed JSON
objects have distinct keys). -/
def lookupField : List (String × Json) → String → Option Json
  | [], _ => none
  | (k, v) :: rest, key => if k = key then some v else lookupField rest key

/-- JS property access `x.key`: `none` models `undefined`. -/
def jsGet : Json → String → Option Json
  | .obj fields, key => lookupField fields key
  | _, _ => none

/-- JS truthiness of a value. -/
def truthy : Json → Bool
  | .str s => !s.isEmpty
  | .num n => n != 0
  | .bool b => b
  | .null => false
  | .arr _ => true
  | .obj _ => true

/-- JS truthiness of a possibly-`undefined` value. -/
def truthyOpt : Option Json → Bool
  | some j => truthy j
  | none => false

/-- `typeof x === 'object'` (true for objects, arrays and `null`). -/
def isObjectType : Json → Bool
  | .obj _ => true
  | .arr _ => true
  | .null => true
  | _ => false

/-- `Array.isArray x`. -/
def isArrayType : Json → Bool
  | .arr _ => true
  | _ => false

/-- `x.length` of an array (0 on anything else; only applied to arrays). -/
def jsArrayLength : Json → Nat
  | .arr elems => elems.length
  | _ => 0

/-- `Object.keys(x).length`: field count of an object, index count of an
array or a string, 0 on primitives. -/
def jsKeysLength : Json → Nat
  | .obj fields => fields.length
  | .arr elems => elems.length
  | .str s => s.length
  | _ => 0

/-- `Object.values x`: field values of an object, elements of an array,
characters of a string, `[]` on other primitives. -/
def jsValues : Json → List Json
  | .obj fields => fields.map Prod.snd
  | .arr elems => elems
  | .str s => s.data.map (fun c => Json.str (String.mk [c]))
  | _ => []

/-! ## Statistics aggregator (src/index.tsx lines 336-392) -/

/-- `countRulesFromLegacy`: `version.rules && Array.isArray(version.rules) ?
version.rules.length : 0`. -/
def countRulesFromLegacy (version : Json) : Nat :=
  match jsGet version "rules" with
  | some r => if truthy r && isArrayType r then jsArrayLength r else 0
  | none => 0

/-- `countRulesFromNewIndex`: `version.rules && typeof version.rules ===
'object' ? Object.keys(version.rules).length : 0`. -/
def countRulesFromNewIndex (version : Json) : Nat :=
  match jsGet version "rules" with
  | some r => if truthy r && isObjectType r then jsKeysLength r else 0
  | none => 0

/-- `data.versions || data`: unwrap the optional `versions` wrapper. -/
def unwrapVersions (data : Json) : Json :=
  match jsGet data "versions" with
  | some v => if truthy v then v else data
  | none => data

/-- `countTotalRules`: for each truthy version value, add the counts of both
shape interpretations.  The guard `!data || typeof data !== 'object'`
returns 0 unless `data` is an object or an array. -/
def countTotalRules (data : Json) : Nat :=
  match data with
  | .obj _ | .arr _ =>
      ((jsValues (unwrapVersions data)).map
        (fun version =>
          if truthy version then
            countRulesFromLegacy version + countRulesFromNewIndex version
          else 0)).sum
  | _ => 0

/-- `isRuleComplete`: `(rule.was && rule.warum && rule.wie) ||
(rule.wortlaut && rule.seele && rule.funktion)` used as a condition. -/
def isRuleComplete (rule : Json) : Bool :=
  (truthyOpt (jsGet rule "was") && truthyOpt (jsGet rule "warum")
      && truthyOpt (jsGet rule "wie"))
    || (truthyOpt (jsGet rule "wortlaut") && truthyOpt (jsGet rule "seele")
      && truthyOpt (jsGet rule "funktion"))

/-- Per-version body of `countReconstructedRules`: the legacy (array) branch
iterates the elements, the new-index (object) branch iterates
`Object.values`, both counting truthy rules satisfying `isRuleComplete`. -/
def countReconstructedInVersion (version : Json) : Nat :=
  match jsGet version "rules" with
  | some r =>
      if truthy r && isArrayType r then
        ((jsValues r).filter (fun rule => truthy rule && isRuleComplete rule)).length
      else if truthy r && isObjectType r then
        ((jsValues r).filter (fun rule => truthy rule && isRuleComplete rule)).length
      else 0
  | none => 0

/-- `countReconstructedRules`. -/
def countReconstructedRules (data : Json) : Nat :=
  match data with
  | .obj _ | .arr _ =>
      ((jsValues (unwrapVersions data)).map
        (fun version =>
          if truthy version then countReconstructedInVersion version else 0)).sum
  | _ => 0

/-- `countVersions`: `Object.keys(dataToProcess).length`. -/
def countVersions (data : Json) : Nat :=
  match data with
  | .obj _ | .arr _ => jsKeysLength (unwrapVersions data)
  | _ => 0

/-- `calculateSemanticDepth`: `total > 0 ? Math.round((reconstructed / total)
* 100) : 0`, with `Math.round` modelled as Mathlib's `round` over `ℚ`
(half-values round up, as in JS). -/
def calculateSemanticDepth (data : Json) : ℤ :=
  let total := countTotalRules data
  let reconstructed := countReconstructedRules data
  if 0 < total then round (((reconstructed : ℚ) / (total : ℚ)) * 100) else 0

/-! ## Pre-filter `filterAcceptedRules` (src/index.tsx lines 113-138) -/

/-- A parsed rule-index document: optional `meta`, and `versions` as an
association list from version key to the version's rule map (rule key to
rule value). -/
structure RuleIndexDocument where
  meta : Option Json
  versions : List (String × List (String × Json))

/-- `rule.accepted === true` (strict equality against boolean `true`). -/
def ruleAccepted (rule : Json) : Bool :=
  match jsGet rule "accepted" with
  | some (.bool true) => true
  | _ => false

/-- Inner loop of `filterAcceptedRules`: keep the rules with
`accepted === true`. -/
def filterVersion (rules : List (String × Json)) : List (String × Json) :=
  rules.filter (fun kv => ruleAccepted kv.2)

/-- Outer loop of `filterAcceptedRules`: a version is kept (with its filtered
rule map) only when `hasAcceptedRules`, i.e. when the filtered map is
non-empty. -/
def versionsFilter (versions : List (String × List (String × Json))) :
    List (String × List (String × Json)) :=
  versions.filterMap (fun v =>
    if (filterVersion v.2).isEmpty then none else some (v.1, filterVersion v.2))

/-- Result of `filterAcceptedRules`: the filtered document and the two loop
counters. -/
structure FilterResult where
  filteredData : RuleIndexDocument
  originalCount : Nat
  filteredCount : Nat

/-- `filterAcceptedRules`: `originalCount` is incremented for every rule of
every version, `filteredCount` for every rule with `accepted === true`;
`meta` is copied through unchanged. -/
def filterAcceptedRules (data : RuleIndexDocument) : FilterResult :=
  { filteredData := { meta := data.meta, versions := versionsFilter data.versions }
    originalCount := (data.versions.map (fun v => v.2.length)).sum
    filteredCount := (data.versions.map (fun v => (filterVersion v.2).length)).sum }

/-! ## Retrying remote-call wrapper `callWithRetry` (src/index.tsx 153-181) -/

/-- Uppercase an ASCII letter (model of the case-insensitive regexp flag). -/
def upperChar (c : Char) : Char :=
  if 'a' ≤ c ∧ c ≤ 'z' then Char.ofNat (c.toNat - 32) else c

/-- Substring occurrence test on character lists. -/
def containsSeq (needle : List Char) : List Char → Bool
  | [] => needle.isEmpty
  | c :: rest => needle.isPrefixOf (c :: rest) || containsSeq needle rest

/-- `/500|UNKNOWN|UNAVAILABLE/i.test(errorMessage)`: case-insensitive
substring match against the three retryable patterns. -/
def isRetryableError (msg : String) : Bool :=
  let u := msg.data.map upperChar
  containsSeq "500".data u || containsSeq "UNKNOWN".data u
    || containsSeq "UNAVAILABLE".data u

/-- One logged retry warning: the 0-indexed failed attempt and the wait
`baseDelay * 2 ^ i + jitter i` (in ms) announced before the delay. -/
structure RetryWarning where
  attempt : Nat
  waitMs : ℚ

/-- Observable outcome of the wrapper: the returned or re-raised result, how
often `apiCall` was invoked, and the retry warnings in log order. -/
structure RetryResult (α : Type) where
  outcome : Except String α
  invocations : Nat
  warnings : List RetryWarning

/-- `baseDelay = 1000` ms. -/
def baseDelay : ℚ := 1000

/-- The `for (let i = 0; i < maxRetries; i++)` loop of `callWithRetry`.
`apiCall i` is the result of the (i+1)-th invocation, `jitter i` models
`Math.random() * 200` before attempt `i + 1`.  A retryable error with
`i < maxRetries - 1` logs a warning and retries after the backoff; any other
error is re-thrown at once; a loop exit re-throws the last error. -/
def callWithRetryGo {α : Type} (apiCall : Nat → Except String α)
    (jitter : Nat → ℚ) (maxRetries : Nat) :
    Nat → Nat → List RetryWarning → Option String → RetryResult α
  | i, 0, warns, lastError => ⟨.error (lastError.getD ""), i, warns⟩
  | i, fuel + 1, warns, _ =>
      match apiCall i with
      | .ok v => ⟨.ok v, i + 1, warns⟩
      | .error e =>
          if isRetryableError e = true ∧ i < maxRetries - 1 then
            callWithRetryGo apiCall jitter maxRetries (i + 1) fuel
              (warns ++ [⟨i, baseDelay * 2 ^ i + jitter i⟩]) (some e)
          else ⟨.error e, i + 1, warns⟩

/-- `callWithRetry` with `maxRetries = 3`. -/
def callWithRetry {α : Type} (apiCall : Nat → Except String α)
    (jitter : Nat → ℚ) : RetryResult α :=
  callWithRetryGo apiCall jitter 3 0 3 [] none

/-! ## Prompt builder (src/index.tsx lines 208-272)

The template literal is reproduced segment by segment; the interpolation
slots carry the truncated fragments.  Literal braces of the JSON example are
written as their escapes. -/

/-- `String(content).substring(0, budget)` followed by the template text
`...`: the marker is appended whether or not the fragment was clipped.
Truncation is taken on the character sequence. -/
def renderFragment (s : String) (budget : Nat) : String :=
  String.mk (s.data.take budget) ++ "..."

/-- Template text up to the main-transcript slot. -/
def promptSeg1 : String :=
  "EVOKI REGELWERK-SEMANTISCHE REKONSTRUKTION\n\nAUFGABE:\nDu bist ein KI-Assistent, der darauf spezialisiert ist, ein versioniertes Regelwerk aus einem Chatverlauf zu rekonstruieren.\nAnalysiere die bereitgestellten Dateiinhalte, um ein vollständiges, strukturiertes JSON-Objekt des Regelwerks zu erstellen.\n\nKONTEXTDATEIEN:\n\n1.  **HAUPTDATEI (Primärquelle):**\n    Ein langer Chatverlauf, der die Entwicklung des Regelwerks von Version 1.0 bis 2.8.R dokumentiert.\n    ---\n    "

/-- Template text between the main-transcript slot and the skeleton slot. -/
def promptSeg2 : String :=
  "\n    ---\n\n2.  **SKELETT-FORMAT (Strukturübersicht, falls vorhanden):**\n    Eine Liste aller Regeln, aber nur mit oberflächlichen \"Was\"-Beschreibungen.\n    ---\n    "

/-- Template text between the skeleton slot and the dense-format slot. -/
def promptSeg3 : String :=
  "\n    ---\n\n3.  **DICHTES FORMAT (Tiefenbeispiel, falls vorhanden):**\n    Einige wenige Regeln, die vollständig mit \"Was\" (Der exakte Wortlaut), \"Warum\" (Die Seele), und \"Wie\" (Die Funktion) beschrieben sind. Dies dient als Musterbeispiel.\n    ---\n    "

/-- Template text between the dense-format slot and the optional index
block. -/
def promptSeg4 : String :=
  "\n    ---\n"

/-- The optional index block (`indexFile ? ... : ''`), including its own
`HINWEIS` note when `processOnlyAccepted` is set. -/
def indexBlock (indexContent : String) (processOnlyAccepted : Bool) : String :=
  "\n4.  **VORSTRUKTURIERTER INDEX (Starke Anleitung):**\n    Dies ist eine bereits extrahierte JSON-Struktur aus einer Offline-Build-Pipeline. Nutze sie als primäre Grundlage für die Rekonstruktion.\n    "
    ++ (if processOnlyAccepted then
          "HINWEIS: Dieser Index wurde VOR-GEFILTERT und enthält nur Regeln, die manuell als \"accepted\": true markiert wurden. Konzentriere dich ausschließlich auf diese Regeln."
        else "")
    ++ "\n    ---\n    " ++ renderFragment indexContent 8000 ++ "\n    ---\n"

/-- Template text introducing the reconstruction steps. -/
def promptSeg5 : String :=
  "\n\nREKONSTRUKTIONSSCHRITTE:\n"

/-- Index-led reconstruction steps (chosen when an index file is present). -/
def stepsIndexLed : String :=
  "\n1.  **Index als Basis nehmen:** Deine Hauptaufgabe ist es, den bereitgestellten \"VORSTRUKTURIERTEN INDEX\" zu vervollständigen. Die Struktur (Versionen, Regel-IDs) ist bereits korrekt.\n2.  **Tiefe ergänzen:** Gehe jede Regel im Index durch. Lies den Kontext in der \"HAUPTDATEI\", um die semantische Tiefe zu verstehen, und fülle die Felder \"warum\" (die Absicht, Seele) und \"wie\" (die Funktion, Umsetzung) präzise und vollständig aus.\n3.  **Wortlaut validieren:** Stelle sicher, dass das \"was\" oder \"wortlaut\"-Feld mit dem finalen Zustand in der \"HAUPTDATEI\" übereinstimmt. Korrigiere bei Bedarf.\n4.  **JSON generieren:** Erstelle das finale, vollständige JSON-Objekt basierend auf dem angereicherten Index.\n"

/-- Pattern-learning reconstruction steps (no index file). -/
def stepsPatternLed : String :=
  "\n1.  **Muster lernen:** Analysiere das \"Dichte Format\" (falls vorhanden), um zu verstehen, wie eine vollständige Regel mit \"was\"/\"wortlaut\", \"warum\"/\"seele\" und \"wie\"/\"funktion\" strukturiert ist. Lerne die semantische Tiefe und den typischen Sprachstil.\n2.  **Struktur extrahieren:** Identifiziere alle Versionen (z.B. \"1.0\", \"1.1\", ...) und die dazugehörigen Regeln aus der \"HAUPTDATEI\" und dem \"SKELETT-FORMAT\".\n3.  **Tiefe ergänzen:** Wende das gelernte Muster auf ALLE Regeln an. Für jede Regel, die nur eine oberflächliche Beschreibung hat, musst du die fehlenden \"Warum\"- und \"Wie\"-Teile semantisch sinnvoll aus dem Kontext des gesamten Chatverlaufs (\"HAUPTDATEI\") rekonstruieren.\n4.  **JSON generieren:** Erstelle ein einziges, valides JSON-Objekt, das das gesamte Regelwerk abbildet.\n"

/-- Closing template text: the required output JSON shape and the
JSON-only instruction. -/
def promptSeg6 : String :=
  "\n\nFINALES JSON-FORMAT:\nGib NUR das JSON-Objekt zurück. Das JSON-Objekt soll so strukturiert sein:\n\x7b\n  \"1.0\": \x7b\n    \"version\": \"1.0\",\n    \"rules\": [\n      \x7b\n        \"id\": \"Regel-1\",\n        \"was\": \"Der exakte Wortlaut der Regel.\",\n        \"warum\": \"Die Absicht oder der Zweck hinter der Regel.\",\n        \"wie\": \"Die technische oder funktionale Umsetzung der Regel.\"\n      \x7d\n    ]\n  \x7d\n\x7d\nOder, falls der Input-Index das Format \"wortlaut\", \"seele\", \"funktion\" nutzt, passe das Output-Format entsprechend an.\n\nAntworte ausschließlich mit dem finalen, vollständigen JSON-String. Kein einleitender Text, keine Erklärungen, nur der JSON-Code."

/-- The `prompt` template literal as a function of the four fragment
contents (`none` models an absent optional file) and the
`processOnlyAccepted` toggle. -/
def buildPrompt (mainContent : String) (skeleton dense index : Option String)
    (processOnlyAccepted : Bool) : String :=
  promptSeg1 ++ renderFragment mainContent 15000
    ++ promptSeg2
    ++ (match skeleton with
        | some s => renderFragment s 5000
        | none => "Nicht vorhanden.")
    ++ promptSeg3
    ++ (match dense with
        | some s => renderFragment s 5000
        | none => "Nicht vorhanden.")
    ++ promptSeg4
    ++ (match index with
        | some s => indexBlock s processOnlyAccepted
        | none => "")
    ++ promptSeg5
    ++ (match index with
        | some _ => stepsIndexLed
        | none => stepsPatternLed)
    ++ promptSeg6

/-! ## `JSON.stringify(parsedData, null, 2)` -/

/-- String escaping of `JSON.stringify`. -/
def jsonEscapeChar (c : Char) : String :=
  if c = '"' then "\\\""
  else if c = '\\' then "\\\\"
  else if c = '\x08' then "\\b"
  else if c = '\x0c' then "\\f"
  else if c = '\n' then "\\n"
  else if c = '\r' then "\\r"
  else if c = '\t' then "\\t"
  else if c.toNat < 32 then
    "\\u00" ++ (Nat.digitChar (c.toNat / 16)).toString
      ++ (Nat.digitChar (c.toNat % 16)).toString
  else String.mk [c]

/-- A JSON string literal with escapes. -/
def quoteJsonString (s : String) : String :=
  "\"" ++ String.join (s.data.map jsonEscapeChar) ++ "\""

/-- Indentation of `2 * n` spaces. -/
def indentSpaces (n : Nat) : String :=
  String.mk (List.replicate (2 * n) ' ')

mutual

/-- `JSON.stringify(v, null, 2)` at nesting depth `d`. -/
def stringifyAt : Nat → Json → String
  | _, .str s => quoteJsonString s
  | _, .num n => toString n
  | _, .bool b => if b then "true" else "false"
  | _, .null => "null"
  | d, .arr xs =>
      if xs.isEmpty then "[]"
      else "[\n" ++ String.intercalate ",\n" (stringifyItems (d + 1) xs)
        ++ "\n" ++ indentSpaces d ++ "]"
  | d, .obj fs =>
      if fs.isEmpty then "\x7b\x7d"
      else "\x7b\n" ++ String.intercalate ",\n" (stringifyFields (d + 1) fs)
        ++ "\n" ++ indentSpaces d ++ "\x7d"

/-- Array items, each on its own indented line. -/
def stringifyItems : Nat → List Json → List String
  | _, [] => []
  | d, x :: xs => (indentSpaces d ++ stringifyAt d x) :: stringifyItems d xs

/-- Object members, each `"key": value` on its own indented line. -/
def stringifyFields : Nat → List (String × Json) → List String
  | _, [] => []
  | d, (k, v) :: fs =>
      (indentSpaces d ++ quoteJsonString k ++ ": " ++ stringifyAt d v)
        :: stringifyFields d fs

end

/-- `JSON.stringify(v, null, 2)`. -/
def stringify2 (j : Json) : String :=
  stringifyAt 0 j

/-! ## Response validation (src/index.tsx lines 295-324) -/

/-- One entry of the reconstruction log. -/
structure LogEntry where
  message : String
  severity : String

/-- `addLogEntry`: the message is prefixed with the wall-clock timestamp. -/
def logEntry (timestamp message severity : String) : LogEntry :=
  ⟨"[" ++ timestamp ++ "] " ++ message, severity⟩

/-- The four displayed statistics. -/
structure RunStats where
  totalRules : Nat
  reconstructedRules : Nat
  versionsProcessed : Nat
  semanticDepth : ℤ

/-- The UI state touched by the response-validation step. -/
structure RunUiState where
  reconstructedData : String
  stats : RunStats
  statusMessage : String
  activeTab : String
  log : List LogEntry

/-- The `try { JSON.parse ... } catch (parseError) { ... }` block: `parsed`
is the outcome of `JSON.parse(response.text)` (the platform parser is not
re-implemented; an `Except.error` carries `parseError.message`).  On success
the parsed value is pretty-printed and the statistics recomputed; on failure
the raw text is kept, the statistics are zeroed, an error entry is logged and
the status flags the parse failure.  Both branches end on the results tab. -/
def processResponse (responseText : String) (parsed : Except String Json)
    (timestamp : String) (st : RunUiState) : RunUiState :=
  match parsed with
  | .ok parsedData =>
      let totalRules := countTotalRules parsedData
      let reconstructedRules := countReconstructedRules parsedData
      let versionsProcessed := countVersions parsedData
      let semanticDepth := calculateSemanticDepth parsedData
      { reconstructedData := stringify2 parsedData
        stats := ⟨totalRules, reconstructedRules, versionsProcessed, semanticDepth⟩
        statusMessage := "Semantische Rekonstruktion abgeschlossen! ✓"
        activeTab := "results"
        log := st.log ++ [logEntry timestamp
          ("Erfolg: " ++ toString totalRules ++ " Regeln in "
            ++ toString versionsProcessed ++ " Versionen rekonstruiert.")
          "success"] }
  | .error parseErrorMessage =>
      { reconstructedData := responseText
        stats := ⟨0, 0, 0, 0⟩
        statusMessage := "Fehler: Die KI-Antwort war kein valides JSON."
        activeTab := "results"
        log := st.log ++ [logEntry timestamp
          ("Fehler beim Parsen der KI-Antwort: " ++ parseErrorMessage
            ++ ". Dies geschieht oft, wenn die Antwort zu lang ist und abgeschnitten wird. Die unvollständige Antwort wird zur Analyse im Ergebnis-Tab angezeigt.")
          "error"] }

/-! ## Verified properties -/

/-- Per version, the reconstructed-rule count never exceeds the summed
double-shape total: the legacy branch counts at most the array length and
the new-index branch at most the key count. -/
lemma countReconstructedInVersion_le (version : Json) :
    countReconstructedInVersion version
      ≤ countRulesFromLegacy version + countRulesFromNewIndex version := by
  unfold countReconstructedInVersion countRulesFromLegacy countRulesFromNewIndex
  cases h : jsGet version "rules" with
  | none => exact Nat.le_refl 0
  | some r =>
      cases r with
      | arr xs =>
          have hle : (xs.filter (fun rule => truthy rule && isRuleComplete rule)).length
              ≤ xs.length + xs.length :=
            le_trans (List.length_filter_le _ xs) (Nat.le_add_right _ _)
          simpa [truthy, isArrayType, isObjectType, jsArrayLength, jsKeysLength, jsValues]
            using hle
      | obj fs =>
          have hle : ((fs.map Prod.snd).filter
                (fun rule => truthy rule && isRuleComplete rule)).length ≤ fs.length :=
            le_trans (List.length_filter_le _ _) (le_of_eq (List.length_map fs Prod.snd))
          simpa [truthy, isArrayType, isObjectType, jsArrayLength, jsKeysLength, jsValues]
            using hle
      | str s => simp [truthy, isArrayType, isObjectType]
      | num n => simp [truthy, isArrayType, isObjectType]
      | bool b => simp [truthy, isArrayType, isObjectType]
      | null => simp [truthy, isArrayType, isObjectType]

/-- The completeness count never exceeds the total count. -/
lemma countReconstructedRules_le_total (d : Json) :
    countReconstructedRules d ≤ countTotalRules d := by
  unfold countReconstructedRules countTotalRules
  cases d with
  | obj fs =>
      refine List.sum_le_sum (fun v _ => ?_)
      by_cases hv : truthy v = true
      · simpa [hv] using countReconstructedInVersion_le v
      · simp [hv]
  | arr xs =>
      refine List.sum_le_sum (fun v _ => ?_)
      by_cases hv : truthy v = true
      · simpa [hv] using countReconstructedInVersion_le v
      · simp [hv]
  | str s => exact Nat.le_refl 0
  | num n => exact Nat.le_refl 0
  | bool b => exact Nat.le_refl 0
  | null => exact Nat.le_refl 0

/-- Rounding a rational in `[0, 100]` stays in `[0, 100]`. -/
lemma round_bounds {q : ℚ} (h0 : 0 ≤ q) (h1 : q ≤ 100) :
    0 ≤ round q ∧ round q ≤ 100 := by
  rw [round_eq]
  refine ⟨Int.le_floor.mpr (by push_cast; linarith), ?_⟩
  calc ⌊q + 1 / 2⌋ ≤ ⌊(201 : ℚ) / 2⌋ := Int.floor_le_floor (by linarith)
    _ = 100 := by norm_num

/-- C6: for every value `d` of the dynamic result type — covering both
accepted shapes — `countReconstructedRules d ≤ countTotalRules d` and the
semantic-depth percentage lies in `[0, 100]`. -/
theorem stats_bounds (d : Json) :
    countReconstructedRules d ≤ countTotalRules d
      ∧ 0 ≤ calculateSemanticDepth d ∧ calculateSemanticDepth d ≤ 100 := by
  refine ⟨countReconstructedRules_le_total d, ?_⟩
  unfold calculateSemanticDepth
  by_cases ht : 0 < countTotalRules d
  · rw [if_pos ht]
    have hle : countReconstructedRules d ≤ countTotalRules d :=
      countReconstructedRules_le_total d
    have htq : (0 : ℚ) < (countTotalRules d : ℚ) := by exact_mod_cast ht
    have h0 : (0 : ℚ) ≤ ((countReconstructedRules d : ℚ) / (countTotalRules d : ℚ)) * 100 := by
      positivity
    have h1 : ((countReconstructedRules d : ℚ) / (countTotalRules d : ℚ)) * 100 ≤ 100 := by
      have : (countReconstructedRules d : ℚ) / (countTotalRules d : ℚ) ≤ 1 :=
        (div_le_one htq).mpr (by exact_mod_cast hle)
      nlinarith
    exact round_bounds h0 h1
  · rw [if_neg ht]
    exact ⟨le_refl 0, by norm_num⟩

/-- C5: the semantic depth is 0 when the total is 0 and otherwise the
half-up rounding `⌊100 * reconstructed / total + 1/2⌋` of the percentage. -/
theorem calculateSemanticDepth_eq_round (d : Json) :
    calculateSemanticDepth d =
      if countTotalRules d = 0 then 0
      else ⌊(100 * (countReconstructedRules d : ℚ)) / (countTotalRules d : ℚ) + 1 / 2⌋ := by
  unfold calculateSemanticDepth
  rcases Nat.eq_zero_or_pos (countTotalRules d) with h | h
  · simp [h]
  · rw [if_pos h, if_neg (Nat.pos_iff_ne_zero.mp h), round_eq]
    congr 2
    ring

/-- The spec's end-to-end legacy-shape response:
`{"1.0":{"version":"1.0","rules":[{"id":"Regel-1","was":"x","warum":"y","wie":"z"}]}}`. -/
def legacyScenarioResponse : Json :=
  Json.obj [("1.0", Json.obj [("version", Json.str "1.0"),
    ("rules", Json.arr [Json.obj [("id", Json.str "Regel-1"),
      ("was", Json.str "x"), ("warum", Json.str "y"), ("wie", Json.str "z")]])])]

/-- C2 (evaluation at the failing input): on the spec's legacy-shape
scenario the code yields `totalRules = 2` — the single array-shaped rule is
counted once by the legacy interpretation and once by the key-count
interpretation — and hence `semanticDepthPercent = 50`, not the claimed
`totalRules = 1` / `semanticDepthPercent = 100`. -/
theorem legacyScenario_eval :
    countTotalRules legacyScenarioResponse = 2
      ∧ countReconstructedRules legacyScenarioResponse = 1
      ∧ countVersions legacyScenarioResponse = 1
      ∧ calculateSemanticDepth legacyScenarioResponse = 50 := by
  have ht : countTotalRules legacyScenarioResponse = 2 := by decide
  have hr : countReconstructedRules legacyScenarioResponse = 1 := by decide
  refine ⟨ht, hr, by decide, ?_⟩
  simp only [calculateSemanticDepth, ht, hr]
  norm_num [round_eq]

/-- C10: a version whose `rules` field is an array of `n` entries
contributes `2 * n` to `countTotalRules` (both shape interpretations fire
and are summed), while `countReconstructedRules` counts each such rule at
most once through its exclusive branching. -/
theorem arrayRules_double_count (v : Json) (xs : List Json) (k : String)
    (hr : jsGet v "rules" = some (Json.arr xs)) (hk : ¬ k = "versions") :
    countRulesFromLegacy v + countRulesFromNewIndex v = 2 * xs.length
      ∧ countTotalRules (Json.obj [(k, v)]) = 2 * xs.length
      ∧ countReconstructedRules (Json.obj [(k, v)])
          = (xs.filter (fun rule => truthy rule && isRuleComplete rule)).length
      ∧ countReconstructedInVersion v ≤ xs.length := by
  have hv : ∃ fs, v = Json.obj fs := by
    cases v with
    | obj fs => exact ⟨fs, rfl⟩
    | str s => exact absurd hr (by simp [jsGet])
    | num n => exact absurd hr (by simp [jsGet])
    | bool b => exact absurd hr (by simp [jsGet])
    | null => exact absurd hr (by simp [jsGet])
    | arr l => exact absurd hr (by simp [jsGet])
  obtain ⟨fs, rfl⟩ := hv
  have hsum : countRulesFromLegacy (Json.obj fs) + countRulesFromNewIndex (Json.obj fs)
      = 2 * xs.length := by
    unfold countRulesFromLegacy countRulesFromNewIndex
    rw [hr]
    simp [truthy, isArrayType, isObjectType, jsArrayLength, jsKeysLength, Nat.two_mul]
  have hrec : countReconstructedInVersion (Json.obj fs)
      = (xs.filter (fun rule => truthy rule && isRuleComplete rule)).length := by
    unfold countReconstructedInVersion
    rw [hr]
    simp [truthy, isArrayType, jsValues]
  refine ⟨hsum, ?_, ?_, ?_⟩
  · unfold countTotalRules unwrapVersions
    simp only [jsGet, lookupField, if_neg hk]
    simpa [jsValues, truthy] using hsum
  · unfold countReconstructedRules unwrapVersions
    simp only [jsGet, lookupField, if_neg hk]
    simpa [jsValues, truthy] using hrec
  · rw [hrec]
    exact List.length_filter_le _ xs

/-- A concrete array-shaped rule entry for the double-count witness. -/
def sampleArrayRule : Json :=
  Json.obj [("id", Json.str "Regel-1"), ("was", Json.str "x"),
    ("warum", Json.str "y"), ("wie", Json.str "z")]

/-- A version object whose `rules` field is a one-element array. -/
def sampleArrayVersion : Json :=
  Json.obj [("rules", Json.arr [sampleArrayRule])]

/-- Witness for C10 at a concrete one-rule array version. -/
theorem arrayRules_double_count_witness :
    countTotalRules (Json.obj [("1.0", sampleArrayVersion)])
      = 2 * ([sampleArrayRule] : List Json).length :=
  (arrayRules_double_count sampleArrayVersion [sampleArrayRule] "1.0" rfl
    (by decide)).2.1

/-- The six textual fields a rule entry may carry. -/
def textualRuleFields : List String :=
  ["was", "warum", "wie", "wortlaut", "seele", "funktion"]

/-- A field is present with a non-empty string value. -/
def presentNonempty (rule : Json) (f : String) : Prop :=
  ∃ s, jsGet rule f = some (Json.str s) ∧ s ≠ ""

/-- On a string-valued field, JS truthiness is exactly presence with a
non-empty value. -/
lemma truthyOpt_textual (rule : Json) (f : String)
    (h : ∀ j, jsGet rule f = some j → ∃ s, j = Json.str s) :
    truthyOpt (jsGet rule f) = true ↔ presentNonempty rule f := by
  cases hg : jsGet rule f with
  | none => simp [truthyOpt, presentNonempty, hg]
  | some j =>
      obtain ⟨s, rfl⟩ := h j hg
      constructor
      · intro ht
        have hf : s.isEmpty = false := by simpa [truthyOpt, truthy] using ht
        refine ⟨s, hg, ?_⟩
        intro he
        rw [he] at hf
        exact absurd hf (by decide)
      · rintro ⟨s', hs', hne⟩
        rw [hg] at hs'
        obtain rfl : s = s' := by
          injection hs' with h1
          injection h1
        have hf : s.isEmpty = false := by
          cases hb : s.isEmpty with
          | false => rfl
          | true => exact absurd ((String.isEmpty_iff s).mp hb) hne
        simp [truthyOpt, truthy, hf]

/-- C4: for a rule whose fields are textual, `isRuleComplete` holds iff the
legacy triplet (`was`, `warum`, `wie`) or the alternate triplet (`wortlaut`,
`seele`, `funktion`) is fully present with non-empty values; a rule mixing
fields of the two triplets without completing either is not complete. -/
theorem isRuleComplete_characterization (rule : Json)
    (htext : ∀ f ∈ textualRuleFields, ∀ j, jsGet rule f = some j →
      ∃ s, j = Json.str s) :
    isRuleComplete rule = true ↔
      ((presentNonempty rule "was" ∧ presentNonempty rule "warum"
          ∧ presentNonempty rule "wie")
        ∨ (presentNonempty rule "wortlaut" ∧ presentNonempty rule "seele"
          ∧ presentNonempty rule "funktion")) := by
  have hwas := truthyOpt_textual rule "was" (htext _ (by simp [textualRuleFields]))
  have hwarum := truthyOpt_textual rule "warum" (htext _ (by simp [textualRuleFields]))
  have hwie := truthyOpt_textual rule "wie" (htext _ (by simp [textualRuleFields]))
  have hwort := truthyOpt_textual rule "wortlaut" (htext _ (by simp [textualRuleFields]))
  have hseele := truthyOpt_textual rule "seele" (htext _ (by simp [textualRuleFields]))
  have hfunk := truthyOpt_textual rule "funktion" (htext _ (by simp [textualRuleFields]))
  unfold isRuleComplete
  simp only [Bool.or_eq_true, Bool.and_eq_true, hwas, hwarum, hwie, hwort, hseele, hfunk]
  tauto

/-- A rule mixing the two triplets without completing either. -/
def mixedRule : Json :=
  Json.obj [("was", Json.str "x"), ("warum", Json.str "y"),
    ("seele", Json.str "s"), ("funktion", Json.str "f")]

/-- Witness for C4: the mixed rule is textual, and by the characterization
it is not counted as complete. -/
theorem isRuleComplete_characterization_witness :
    isRuleComplete mixedRule = false := by
  have htext : ∀ f ∈ textualRuleFields, ∀ j, jsGet mixedRule f = some j →
      ∃ s, j = Json.str s := by
    intro f hf j hj
    have hf' : f = "was" ∨ f = "warum" ∨ f = "wie" ∨ f = "wortlaut"
        ∨ f = "seele" ∨ f = "funktion" := by
      simpa [textualRuleFields] using hf
    rcases hf' with rfl | rfl | rfl | rfl | rfl | rfl <;>
      first
        | exact ⟨_, (Option.some.inj hj).symm⟩
        | exact Option.noConfusion hj
  cases hb : isRuleComplete mixedRule with
  | false => rfl
  | true =>
      rcases (isRuleComplete_characterization mixedRule htext).mp hb with
        ⟨_, _, ⟨s, hs, _⟩⟩ | ⟨⟨s, hs, _⟩, _, _⟩
      · exact Option.noConfusion hs
      · exact Option.noConfusion hs

/-- The per-version filtered count carries over to the retained versions:
dropped versions contribute zero. -/
lemma filteredCount_eq (versions : List (String × List (String × Json))) :
    (versions.map (fun v => (filterVersion v.2).length)).sum
      = ((versionsFilter versions).map (fun v => v.2.length)).sum := by
  induction versions with
  | nil => rfl
  | cons a l ih =>
      by_cases h : (filterVersion a.2).isEmpty
      · have hz : (filterVersion a.2).length = 0 := by
          rw [List.isEmpty_iff] at h
          simp [h]
        rw [versionsFilter, List.filterMap_cons, if_pos h]
        rw [versionsFilter] at ih
        simpa [hz] using ih
      · rw [versionsFilter, List.filterMap_cons, if_neg h]
        rw [versionsFilter] at ih
        simp [ih]

/-- C3: the pre-filter keeps exactly the rules with `accepted === true`,
keeps a version iff its filtered rule map is non-empty, and the two counters
are the number of input rules and the number of output rules. -/
theorem filterAcceptedRules_spec (data : RuleIndexDocument) :
    (∀ v ∈ (filterAcceptedRules data).filteredData.versions,
        v.2 ≠ [] ∧ ∀ kv ∈ v.2, ruleAccepted kv.2 = true)
      ∧ (∀ v, v ∈ (filterAcceptedRules data).filteredData.versions ↔
          ∃ rules, (v.1, rules) ∈ data.versions ∧ v.2 = filterVersion rules
            ∧ filterVersion rules ≠ [])
      ∧ (filterAcceptedRules data).originalCount
          = (data.versions.map (fun v => v.2.length)).sum
      ∧ (filterAcceptedRules data).filteredCount
          = (((filterAcceptedRules data).filteredData.versions).map
              (fun v => v.2.length)).sum := by
  refine ⟨?_, ?_, rfl, filteredCount_eq data.versions⟩
  · intro v hv
    obtain ⟨a, ha, hfa⟩ := List.mem_filterMap.mp hv
    split at hfa
    next => exact Option.noConfusion hfa
    next hne =>
      obtain rfl := Option.some.inj hfa
      refine ⟨fun hnil => hne (by simpa [List.isEmpty_iff] using hnil), ?_⟩
      intro kv hkv
      exact (List.mem_filter.mp hkv).2
  · intro v
    constructor
    · intro hv
      obtain ⟨a, ha, hfa⟩ := List.mem_filterMap.mp hv
      split at hfa
      next => exact Option.noConfusion hfa
      next hne =>
        obtain rfl := Option.some.inj hfa
        exact ⟨a.2, ha, rfl, fun hnil => hne (by simpa [List.isEmpty_iff] using hnil)⟩
    · rintro ⟨rules, hmem, hv2, hne⟩
      refine List.mem_filterMap.mpr ⟨(v.1, rules), hmem, ?_⟩
      rw [if_neg]
      · rw [← hv2]
      · intro hemp
        exact hne (by simpa [List.isEmpty_iff] using hemp)

/-- A rule marked accepted and one without a mark, for the pre-filter
witness. -/
def acceptedSampleRule : Json :=
  Json.obj [("was", Json.str "x"), ("accepted", Json.bool true)]

/-- A rule without `accepted: true`. -/
def rejectedSampleRule : Json :=
  Json.obj [("was", Json.str "y")]

/-- A one-version index document with one accepted and one rejected rule. -/
def sampleIndexDoc : RuleIndexDocument :=
  { meta := none
    versions := [("1.0", [("Regel-1", acceptedSampleRule),
      ("Regel-2", rejectedSampleRule)])] }

/-- Witness for C3: the retained version of the concrete document is
non-empty, by the specification theorem. -/
theorem filterAcceptedRules_spec_witness :
    ([("Regel-1", acceptedSampleRule)] : List (String × Json)) ≠ [] :=
  ((filterAcceptedRules_spec sampleIndexDoc).1
    ("1.0", [("Regel-1", acceptedSampleRule)]) (List.Mem.head _)).1

/-- `filterVersion` is idempotent: every retained rule is accepted. -/
lemma filterVersion_idem (rules : List (String × Json)) :
    filterVersion (filterVersion rules) = filterVersion rules :=
  List.filter_eq_self.mpr (fun _ hkv => (List.mem_filter.mp hkv).2)

/-- `versionsFilter` fixes any list whose members it would keep unchanged. -/
lemma versionsFilter_self (versions : List (String × List (String × Json)))
    (hall : ∀ v ∈ versions, filterVersion v.2 = v.2
      ∧ (filterVersion v.2).isEmpty = false) :
    versionsFilter versions = versions := by
  induction versions with
  | nil => rfl
  | cons a l ih =>
      obtain ⟨hfix, hne⟩ := hall a (List.Mem.head _)
      have hrest : versionsFilter l = l :=
        ih (fun v hv => hall v (List.Mem.tail _ hv))
      rw [versionsFilter] at hrest ⊢
      rw [List.filterMap_cons, if_neg (by simp [hne]), hfix, hrest, Prod.mk.eta]

/-- `versionsFilter` is idempotent: kept versions keep their (already
all-accepted, non-empty) rule maps. -/
lemma versionsFilter_idem (versions : List (String × List (String × Json))) :
    versionsFilter (versionsFilter versions) = versionsFilter versions := by
  apply versionsFilter_self
  intro v hv
  obtain ⟨a, ha, hfa⟩ := List.mem_filterMap.mp hv
  split at hfa
  next => exact Option.noConfusion hfa
  next hne =>
    obtain rfl := Option.some.inj hfa
    refine ⟨filterVersion_idem a.2, ?_⟩
    rw [filterVersion_idem]
    cases hemp : (filterVersion a.2).isEmpty with
    | false => rfl
    | true => exact absurd hemp hne

/-- C8: re-filtering an already-filtered document yields an identical
document. -/
theorem filterAcceptedRules_idempotent (data : RuleIndexDocument) :
    (filterAcceptedRules (filterAcceptedRules data).filteredData).filteredData
      = (filterAcceptedRules data).filteredData := by
  simp [filterAcceptedRules, versionsFilter_idem]

/-- C7: a failed strict parse still reaches a terminal done state on the
results tab with the raw text preserved verbatim, all four statistics zero,
an error-severity log entry and a status naming the parse failure; a
successful parse displays the pretty-printed object, and on
`{"versions":{}}` the statistics are all zero. -/
theorem processResponse_spec (raw timestamp : String) (st : RunUiState) :
    (∀ e, processResponse raw (.error e) timestamp st =
        { reconstructedData := raw
          stats := ⟨0, 0, 0, 0⟩
          statusMessage := "Fehler: Die KI-Antwort war kein valides JSON."
          activeTab := "results"
          log := st.log ++ [logEntry timestamp
            ("Fehler beim Parsen der KI-Antwort: " ++ e
              ++ ". Dies geschieht oft, wenn die Antwort zu lang ist und abgeschnitten wird. Die unvollständige Antwort wird zur Analyse im Ergebnis-Tab angezeigt.")
            "error"] })
      ∧ (∀ j, (processResponse raw (.ok j) timestamp st).reconstructedData
          = stringify2 j)
      ∧ (processResponse raw (.ok (Json.obj [("versions", Json.obj [])]))
          timestamp st).stats = ⟨0, 0, 0, 0⟩ :=
  ⟨fun _ => rfl, fun _ => rfl, rfl⟩

/-- The embedded form of a fragment: its first `budget` characters with the
`...` marker. -/
def truncatedWithMarker (s : String) (budget : Nat) : String :=
  String.mk (s.data.take budget) ++ "..."

/-- C9 counterexample: with the one-character main transcript `"a"` — far
below the 15,000-character budget, so not clipped — the built prompt still
embeds `"a" ++ "..."`, i.e. the truncation marker is appended although
nothing was truncated, contradicting "when and only when clipped". -/
theorem buildPrompt_marker_counterexample :
    ("a" : String).length ≤ 15000
      ∧ buildPrompt "a" none none none false
          = promptSeg1 ++ ("a" ++ "...")
            ++ (promptSeg2 ++ ("Nicht vorhanden."
              ++ (promptSeg3 ++ ("Nicht vorhanden."
                ++ (promptSeg4 ++ ("" ++ (promptSeg5
                  ++ (stepsPatternLed ++ promptSeg6))))))))
      ∧ renderFragment "a" 15000 ≠ "a" := by
  have ha : renderFragment "a" 15000 = "a" ++ "..." := by
    show String.mk (("a" : String).data.take 15000) ++ "..." = "a" ++ "..."
    rw [List.take_of_length_le (by decide)]
  refine ⟨by decide, ?_, ?_⟩
  · simp only [buildPrompt, ha, String.append_assoc]
  · rw [ha]
    decide

/-- C9 (amended): each present fragment is embedded truncated to its budget
(main 15,000, skeleton/dense 5,000, index 8,000 characters) with the `...`
marker appended unconditionally, and an absent skeleton or dense fragment is
replaced by the placeholder sentence. -/
theorem buildPrompt_fragments (m sk dn ix : String) (po : Bool) :
    (∃ pre post, buildPrompt m (some sk) (some dn) (some ix) po
        = pre ++ truncatedWithMarker m 15000 ++ post)
      ∧ (∃ pre post, buildPrompt m (some sk) (some dn) (some ix) po
          = pre ++ truncatedWithMarker sk 5000 ++ post)
      ∧ (∃ pre post, buildPrompt m (some sk) (some dn) (some ix) po
          = pre ++ truncatedWithMarker dn 5000 ++ post)
      ∧ (∃ pre post, buildPrompt m (some sk) (some dn) (some ix) po
          = pre ++ truncatedWithMarker ix 8000 ++ post)
      ∧ (∃ pre post, buildPrompt m none (some dn) (some ix) po
          = pre ++ "Nicht vorhanden." ++ post)
      ∧ (∃ pre post, buildPrompt m (some sk) none (some ix) po
          = pre ++ "Nicht vorhanden." ++ post) := by
  refine ⟨⟨promptSeg1,
      promptSeg2 ++ truncatedWithMarker sk 5000 ++ promptSeg3
        ++ truncatedWithMarker dn 5000 ++ promptSeg4 ++ indexBlock ix po
        ++ promptSeg5 ++ stepsIndexLed ++ promptSeg6, ?_⟩,
    ⟨promptSeg1 ++ truncatedWithMarker m 15000 ++ promptSeg2,
      promptSeg3 ++ truncatedWithMarker dn 5000 ++ promptSeg4 ++ indexBlock ix po
        ++ promptSeg5 ++ stepsIndexLed ++ promptSeg6, ?_⟩,
    ⟨promptSeg1 ++ truncatedWithMarker m 15000 ++ promptSeg2
        ++ truncatedWithMarker sk 5000 ++ promptSeg3,
      promptSeg4 ++ indexBlock ix po ++ promptSeg5 ++ stepsIndexLed ++ promptSeg6, ?_⟩,
    ⟨promptSeg1 ++ truncatedWithMarker m 15000 ++ promptSeg2
        ++ truncatedWithMarker sk 5000 ++ promptSeg3 ++ truncatedWithMarker dn 5000
        ++ promptSeg4
        ++ "\n4.  **VORSTRUKTURIERTER INDEX (Starke Anleitung):**\n    Dies ist eine bereits extrahierte JSON-Struktur aus einer Offline-Build-Pipeline. Nutze sie als primäre Grundlage für die Rekonstruktion.\n    "
        ++ (if po then
              "HINWEIS: Dieser Index wurde VOR-GEFILTERT und enthält nur Regeln, die manuell als \"accepted\": true markiert wurden. Konzentriere dich ausschließlich auf diese Regeln."
            else "")
        ++ "\n    ---\n    ",
      "\n    ---\n" ++ promptSeg5 ++ stepsIndexLed ++ promptSeg6, ?_⟩,
    ⟨promptSeg1 ++ truncatedWithMarker m 15000 ++ promptSeg2,
      promptSeg3 ++ truncatedWithMarker dn 5000 ++ promptSeg4 ++ indexBlock ix po
        ++ promptSeg5 ++ stepsIndexLed ++ promptSeg6, ?_⟩,
    ⟨promptSeg1 ++ truncatedWithMarker m 15000 ++ promptSeg2
        ++ truncatedWithMarker sk 5000 ++ promptSeg3,
      promptSeg4 ++ indexBlock ix po ++ promptSeg5 ++ stepsIndexLed ++ promptSeg6, ?_⟩⟩
    <;> simp only [buildPrompt, renderFragment, truncatedWithMarker, indexBlock,
      String.append_assoc]

/-- One unrolling of the retry loop. -/
lemma callWithRetryGo_step {α : Type} (apiCall : Nat → Except String α)
    (jitter : Nat → ℚ) (maxRetries i fuel : Nat) (warns : List RetryWarning)
    (lastError : Option String) :
    callWithRetryGo apiCall jitter maxRetries i (fuel + 1) warns lastError =
      match apiCall i with
      | .ok v => ⟨.ok v, i + 1, warns⟩
      | .error e =>
          if isRetryableError e = true ∧ i < maxRetries - 1 then
            callWithRetryGo apiCall jitter maxRetries (i + 1) fuel
              (warns ++ [⟨i, baseDelay * 2 ^ i + jitter i⟩]) (some e)
          else ⟨.error e, i + 1, warns⟩ := rfl

/-- The loop makes at most `i + fuel` invocations when started at attempt
index `i` with `fuel` iterations left. -/
lemma callWithRetryGo_invocations {α : Type} (apiCall : Nat → Except String α)
    (jitter : Nat → ℚ) (maxRetries : Nat) :
    ∀ fuel i warns lastError,
      (callWithRetryGo apiCall jitter maxRetries i fuel warns lastError).invocations
        ≤ i + fuel := by
  intro fuel
  induction fuel with
  | zero => intro i warns lastError; exact Nat.le_refl i
  | succ fuel ih =>
      intro i warns lastError
      rw [callWithRetryGo_step]
      rcases h0 : apiCall i with e | v
      · simp only [h0]
        by_cases hc : isRetryableError e = true ∧ i < maxRetries - 1
        · rw [if_pos hc]
          calc (callWithRetryGo apiCall jitter maxRetries (i + 1) fuel _ _).invocations
              ≤ (i + 1) + fuel := ih _ _ _
            _ = i + (fuel + 1) := by omega
        · rw [if_neg hc]
          show i + 1 ≤ i + (fuel + 1)
          omega
      · simp only [h0]
        show i + 1 ≤ i + (fuel + 1)
        omega

/-- Every warning the loop ever logs carries the backoff
`baseDelay * 2 ^ n + jitter n` of its failed attempt `n`. -/
lemma callWithRetryGo_warnings {α : Type} (apiCall : Nat → Except String α)
    (jitter : Nat → ℚ) (maxRetries : Nat) :
    ∀ fuel i warns lastError,
      (∀ w ∈ warns, ∃ n, w = ⟨n, baseDelay * 2 ^ n + jitter n⟩) →
      ∀ w ∈ (callWithRetryGo apiCall jitter maxRetries i fuel warns
        lastError).warnings,
        ∃ n, w = ⟨n, baseDelay * 2 ^ n + jitter n⟩ := by
  intro fuel
  induction fuel with
  | zero => intro i warns lastError h w hw; exact h w hw
  | succ fuel ih =>
      intro i warns lastError h w hw
      rw [callWithRetryGo_step] at hw
      rcases h0 : apiCall i with e | v
      · simp only [h0] at hw
        by_cases hc : isRetryableError e = true ∧ i < maxRetries - 1
        · rw [if_pos hc] at hw
          refine ih _ _ _ ?_ w hw
          intro w' hw'
          rcases List.mem_append.mp hw' with hmem | hmem
          · exact h w' hmem
          · rcases List.mem_singleton.mp hmem with rfl
            exact ⟨i, rfl⟩
        · rw [if_neg hc] at hw
          exact h w hw
      · simp only [h0] at hw
        exact h w hw

/-- C1: the wrapper makes at most 3 attempts; a non-retryable first error
propagates after exactly one invocation with no warnings; two retryable
failures followed by a success return the success value after exactly 3
invocations with exactly the two retry warnings; a retryable failure
followed by a non-retryable one propagates the second error; three
retryable failures re-raise the last error; and every logged warning
carries the wait `1000 * 2 ^ i + jitter i ∈ [1000 * 2 ^ i, 1000 * 2 ^ i + 200)`
of its failed attempt `i`. -/
theorem callWithRetry_spec {α : Type} (apiCall : Nat → Except String α)
    (jitter : Nat → ℚ) (hjit : ∀ i, 0 ≤ jitter i ∧ jitter i < 200) :
    (callWithRetry apiCall jitter).invocations ≤ 3
      ∧ (∀ e, apiCall 0 = .error e → isRetryableError e = false →
          callWithRetry apiCall jitter = ⟨.error e, 1, []⟩)
      ∧ (∀ e0 e1, apiCall 0 = .error e0 → isRetryableError e0 = true →
          apiCall 1 = .error e1 → isRetryableError e1 = false →
          callWithRetry apiCall jitter
            = ⟨.error e1, 2, [⟨0, 1000 + jitter 0⟩]⟩)
      ∧ (∀ e0 e1 v, apiCall 0 = .error e0 → isRetryableError e0 = true →
          apiCall 1 = .error e1 → isRetryableError e1 = true →
          apiCall 2 = .ok v →
          callWithRetry apiCall jitter
            = ⟨.ok v, 3, [⟨0, 1000 + jitter 0⟩, ⟨1, 2000 + jitter 1⟩]⟩)
      ∧ (∀ e0 e1 e2, apiCall 0 = .error e0 → isRetryableError e0 = true →
          apiCall 1 = .error e1 → isRetryableError e1 = true →
          apiCall 2 = .error e2 →
          callWithRetry apiCall jitter
            = ⟨.error e2, 3, [⟨0, 1000 + jitter 0⟩, ⟨1, 2000 + jitter 1⟩]⟩)
      ∧ (∀ w ∈ (callWithRetry apiCall jitter).warnings,
          w.waitMs = 1000 * 2 ^ w.attempt + jitter w.attempt
            ∧ 1000 * 2 ^ w.attempt ≤ w.waitMs
            ∧ w.waitMs < 1000 * 2 ^ w.attempt + 200) := by
  refine ⟨?_, ?_, ?_, ?_, ?_, ?_⟩
  · simpa using callWithRetryGo_invocations apiCall jitter 3 3 0 [] none
  · intro e h0 hf
    show callWithRetryGo apiCall jitter 3 0 (2 + 1) [] none = _
    rw [callWithRetryGo_step]
    simp only [h0]
    rw [if_neg]
    rintro ⟨hc, _⟩
    rw [hf] at hc
    exact Bool.noConfusion hc
  · intro e0 e1 h0 hr0 h1 hf1
    show callWithRetryGo apiCall jitter 3 0 (2 + 1) [] none = _
    rw [callWithRetryGo_step]
    simp only [h0]
    rw [if_pos ⟨hr0, by norm_num⟩]
    show callWithRetryGo apiCall jitter 3 1 (1 + 1)
      [⟨0, baseDelay * 2 ^ 0 + jitter 0⟩] (some e0) = _
    rw [callWithRetryGo_step]
    simp only [h1]
    rw [if_neg]
    · norm_num [baseDelay]
    · rintro ⟨hc, _⟩
      rw [hf1] at hc
      exact Bool.noConfusion hc
  · intro e0 e1 v h0 hr0 h1 hr1 h2
    show callWithRetryGo apiCall jitter 3 0 (2 + 1) [] none = _
    rw [callWithRetryGo_step]
    simp only [h0]
    rw [if_pos ⟨hr0, by norm_num⟩]
    show callWithRetryGo apiCall jitter 3 1 (1 + 1)
      [⟨0, baseDelay * 2 ^ 0 + jitter 0⟩] (some e0) = _
    rw [callWithRetryGo_step]
    simp only [h1]
    rw [if_pos ⟨hr1, by norm_num⟩]
    show callWithRetryGo apiCall jitter 3 2 (0 + 1)
      [⟨0, baseDelay * 2 ^ 0 + jitter 0⟩, ⟨1, baseDelay * 2 ^ 1 + jitter 1⟩]
      (some e1) = _
    rw [callWithRetryGo_step]
    simp only [h2]
    norm_num [baseDelay]
  · intro e0 e1 e2 h0 hr0 h1 hr1 h2
    show callWithRetryGo apiCall jitter 3 0 (2 + 1) [] none = _
    rw [callWithRetryGo_step]
    simp only [h0]
    rw [if_pos ⟨hr0, by norm_num⟩]
    show callWithRetryGo apiCall jitter 3 1 (1 + 1)
      [⟨0, baseDelay * 2 ^ 0 + jitter 0⟩] (some e0) = _
    rw [callWithRetryGo_step]
    simp only [h1]
    rw [if_pos ⟨hr1, by norm_num⟩]
    show callWithRetryGo apiCall jitter 3 2 (0 + 1)
      [⟨0, baseDelay * 2 ^ 0 + jitter 0⟩, ⟨1, baseDelay * 2 ^ 1 + jitter 1⟩]
      (some e1) = _
    rw [callWithRetryGo_step]
    simp only [h2]
    rw [if_neg]
    · norm_num [baseDelay]
    · rintro ⟨_, hlt⟩
      omega
  · intro w hw
    obtain ⟨n, rfl⟩ := callWithRetryGo_warnings apiCall jitter 3 3 0 [] none
      (by intro w' hw'; exact absurd hw' (List.not_mem_nil w')) w hw
    refine ⟨by norm_num [baseDelay], ?_, ?_⟩
    · have := (hjit n).1
      show (1000 : ℚ) * 2 ^ n ≤ baseDelay * 2 ^ n + jitter n
      rw [baseDelay]
      linarith
    · have := (hjit n).2
      show baseDelay * 2 ^ n + jitter n < (1000 : ℚ) * 2 ^ n + 200
      rw [baseDelay]
      linarith

/-- Inner call failing twice retryably, then succeeding. -/
def retryMockCall : Nat → Except String Nat :=
  fun i => if i < 2 then .error "HTTP 500 Internal" else .ok 42

/-- Witness for C1: the mock call that fails twice with a retryable error
and then succeeds returns the success value after 3 invocations with two
warnings (zero jitter). -/
theorem callWithRetry_spec_witness :
    callWithRetry retryMockCall (fun _ => 0) =
      ⟨.ok 42, 3, [⟨0, 1000⟩, ⟨1, 2000⟩]⟩ := by
  have h := (callWithRetry_spec retryMockCall (fun _ => 0)
      (fun i => ⟨le_refl 0, by norm_num⟩)).2.2.2.1
    "HTTP 500 Internal" "HTTP 500 Internal" 42 rfl (by decide) rfl (by decide) rfl
  simpa using h

end Regelwerk
